import Mathlib

/-!
Verification of the AI-bot detection engine and its IP-range ingestion
pipeline (app/services/ai_detection_service.py, ip_range_service.py and
scheduler_service.py), as a shallow embedding in Lean 4.

Python strings become Lean `String`, SQLAlchemy rows become structures,
the database session becomes explicit lists of rows threaded through the
functions, and the HTTP fetch becomes an `Except String String` parameter
(error text or response body).  Python set values are embedded as
duplicate-free lists; where the Python code iterates over a set we fix
the deterministic order of first appearance, which is harmless because
every property proved below is insensitive to that order.
-/

namespace AIDetector

/-! ## String helpers

Case-insensitive regex search over the catalog patterns.  Every pattern in
the catalog is a literal string once the regex escape in a pattern such as
Character\.AI is resolved (a backslash-dot matches a literal dot and no
other regex metacharacter occurs), so re.search with re.IGNORECASE is
exactly case-insensitive substring containment. -/

/-- listStartsWith hay pat: pat is an initial segment of hay. -/
def listStartsWith : List Char → List Char → Bool
  | _, [] => true
  | [], _ :: _ => false
  | a :: as, b :: bs => a == b && listStartsWith as bs

/-- listHasSub pat hay: pat occurs contiguously inside hay. -/
def listHasSub (pat : List Char) : List Char → Bool
  | [] => listStartsWith [] pat
  | c :: t => listStartsWith (c :: t) pat || listHasSub pat t

/-- strHasSub hay pat: case-sensitive substring containment (SQL LIKE with
percent on both sides, as PostgreSQL evaluates it). -/
def strHasSub (hay pat : String) : Bool :=
  listHasSub pat.toList hay.toList

/-- strLower s: str.lower — ASCII case folding, the only case folding the
catalog and the bot names exercise. -/
def strLower (s : String) : String :=
  String.mk (s.toList.map Char.toLower)

/-- strSearchCI hay pat: case-insensitive substring containment, the effect
of re.search(pattern, hay.lower(), re.IGNORECASE) for the literal catalog
patterns. -/
def strSearchCI (hay pat : String) : Bool :=
  listHasSub (strLower pat).toList (strLower hay).toList

/-- splitOnChar sep l: str.split(sep) for a one-character separator —
every occurrence splits, empty segments kept. -/
def splitOnChar (sep : Char) : List Char → List (List Char)
  | [] => [[]]
  | c :: t =>
    let r := splitOnChar sep t
    if c = sep then [] :: r
    else
      match r with
      | [] => [[c]]
      | h :: t2 => (c :: h) :: t2

/-- pySplit s sep: string version of splitOnChar. -/
def pySplit (s : String) (sep : Char) : List String :=
  (splitOnChar sep s.toList).map String.mk

/-- pyStrip s: str.strip() — drop whitespace from both ends. -/
def pyStrip (s : String) : String :=
  String.mk (((s.toList.dropWhile Char.isWhitespace).reverse.dropWhile
    Char.isWhitespace).reverse)

/-- replaceFuel old new fuel l: str.replace(old, new) — leftmost
non-overlapping occurrences; fuel bounds the recursion by the input length
(callers always pass a non-empty old). -/
def replaceFuel (old new : List Char) : Nat → List Char → List Char
  | 0, l => l
  | _ + 1, [] => []
  | fuel + 1, c :: t =>
    if old ≠ [] ∧ listStartsWith (c :: t) old then
      new ++ replaceFuel old new fuel (List.drop old.length (c :: t))
    else c :: replaceFuel old new fuel t

/-- pyReplace s old new: string version of replaceFuel. -/
def pyReplace (s old new : String) : String :=
  String.mk (replaceFuel old.toList new.toList s.toList.length s.toList)

/-- digitsToNat? l: the value of a non-empty all-digit string, none
otherwise — int(s) after an isdigit check, as the prefix-length and octet
grammars use it. -/
def digitsToNat? (l : List Char) : Option Nat :=
  if l = [] then none
  else if l.all Char.isDigit then
    some (l.foldl (fun a c => a * 10 + (c.toNat - 48)) 0)
  else none

/-- pyToNat? s: string version of digitsToNat?. -/
def pyToNat? (s : String) : Option Nat :=
  digitsToNat? s.toList

/-! ## Pattern Catalog (AIBotDetectionService.AI_BOT_PATTERNS)

The dict preserves insertion order in Python 3.7+, so the catalog is an
ordered association list.  The three patterns written with a regex escape
(Character\.AI, You\.com, Copy\.ai) are stored here with the literal dot
they match. -/

/-- AI_BOT_PATTERNS: ordered catalog of (category, patterns). -/
def AI_BOT_PATTERNS : List (String × List String) :=
  [ ("ChatGPT", ["GPTBot", "ChatGPT-User", "OpenAI", "ChatGPT"]),
    ("DeepSeek", ["DeepSeek", "DeepSeekBot", "DeepSeek-Crawler"]),
    ("Claude", ["Claude-Web", "Anthropic", "ClaudeBot", "Claude"]),
    ("Gemini", ["Google-Extended", "Gemini", "GoogleAI", "GeminiBot"]),
    ("Perplexity", ["PerplexityBot", "Perplexity", "PerplexityAI"]),
    ("Bing AI", ["BingBot", "Microsoft-BingBot", "BingPreview", "BingAI"]),
    ("Meta AI", ["facebookexternalhit", "MetaBot", "MetaAI"]),
    ("Character.AI", ["Character.AI", "CharacterAI"]),
    ("You.com", ["YouBot", "You.com"]),
    ("Other AI Bots",
      ["AI2Bot", "JasperBot", "Copy.ai", "NotionBot", "SlackBot",
       "DiscordBot", "CohereBot", "ReplicateBot", "HuggingFaceBot"]) ]

/-- firstMatch ua catalog: first (category, pattern) whose pattern occurs
in ua case-insensitively, scanning categories in declaration order and
patterns in declaration order inside a category — the two nested for loops
of detect_ai_bot. -/
def firstMatch (ua : String) : List (String × List String) → Option (String × String)
  | [] => none
  | (cat, pats) :: rest =>
    match pats.find? (fun p => strSearchCI ua p) with
    | some p => some (cat, p)
    | none => firstMatch ua rest

/-- detect_ai_bot: returns (bot_category, matched pattern), or none when the
User-Agent is empty or nothing matches. -/
def detect_ai_bot (user_agent : String) : Option (String × String) :=
  if user_agent = "" then none
  else firstMatch user_agent AI_BOT_PATTERNS

/-- isWordChar c: the character class [\w\-\.] of get_bot_name's cleanup
(ASCII letters, digits, underscore, hyphen, dot — all that occurs in the
catalog). -/
def isWordChar (c : Char) : Bool :=
  c.isAlphanum || c == '_' || c == '-' || c == '.'

/-- cleanName pat: re.sub keeping only word characters, hyphen and dot. -/
def cleanName (pat : String) : String :=
  String.mk (pat.toList.filter isWordChar)

/-- get_bot_name: clean bot name from the matched pattern, the category when
the cleanup empties the pattern, and "unknown" when nothing matches. -/
def get_bot_name (user_agent : String) : String :=
  match detect_ai_bot user_agent with
  | some (cat, pat) =>
      let clean := cleanName pat
      if clean = "" then cat else clean
  | none => "unknown"

/-! ## Data model (app/models/ip_ranges.py)

Rows of ai_bot_ip_ranges and ip_range_update_log.  Timestamp columns are
server-side defaults irrelevant to every property below and are omitted;
last_updated is stamped by the deactivation UPDATE, which the embedding
records through the is_active flip itself. -/

/-- AIBotIPRange row (the spec's AddressRecord). -/
structure AIBotIPRange where
  bot_name : String
  source_type : String
  ip_address : String
  source_url : Option String
  is_active : Bool
deriving Repr, DecidableEq

/-- IPRangeUpdateLog row (the spec's UpdateLogEntry).  duration_seconds is
wall-clock time, not modelled beyond its presence. -/
structure IPRangeUpdateLog where
  bot_name : String
  update_type : String
  changes_count : Nat
  error_message : Option String
  source_url : Option String
deriving Repr, DecidableEq

/-- Mem: the class-level _ai_bot_ips dictionary, an insertion-ordered map
from family key to a set of address strings (sets as duplicate-free
lists). -/
abbrev Mem := List (String × List String)

/-- ServiceState: the world an IPRangeService call can touch — the shared
in-memory dictionary plus the two database tables. -/
structure ServiceState where
  mem : Mem
  ranges : List AIBotIPRange
  logs : List IPRangeUpdateLog
deriving Repr, DecidableEq

/-- AI_BOT_IPS_INIT: the hard-coded initial value of _ai_bot_ips.  Every
construction of IPRangeService immediately clears and reloads these four
buckets from the database, so only the key set and its order survive. -/
def AI_BOT_IPS_INIT : Mem :=
  [ ("ChatGPT User",
      ["23.98.142.176", "13.65.138.112", "172.183.222.128",
       "20.102.212.144", "40.116.73.208", "172.183.143.224",
       "52.230.163.36", "52.230.163.32", "172.213.21.158",
       "52.230.163.44", "52.230.163.45"]),
    ("GPTBot",
      ["104.210.139.224", "20.0.53.96", "52.154.22.48",
       "52.242.245.208", "191.235.66.16"]),
    ("SearchBot",
      ["172.212.159.64", "52.255.111.80", "52.255.111.0",
       "4.151.241.240", "52.255.111.32"]),
    ("Other AI", []) ]

/-- storageCategory bot_name: the bot-family bucketing by substrings of the
lowered bot name, shared verbatim by add_ip_address and
_load_ip_ranges_from_db. -/
def storageCategory (bot_name : String) : String :=
  let l := strLower bot_name
  if strHasSub l "chatgpt" || strHasSub l "user" then "ChatGPT User"
  else if strHasSub l "gptbot" then "GPTBot"
  else if strHasSub l "search" then "SearchBot"
  else "Other AI"

/-- memAdd mem cat ip: set.add on the bucket cat when that key exists,
no effect otherwise (the `storage_category in self._ai_bot_ips` guard). -/
def memAdd (mem : Mem) (cat ip : String) : Mem :=
  mem.map (fun p =>
    if p.1 = cat then (p.1, if ip ∈ p.2 then p.2 else p.2 ++ [ip]) else p)

/-- clearedMem mem: each bucket's set after the clearing loop of
_load_ip_ranges_from_db ran over every category. -/
def clearedMem (mem : Mem) : Mem :=
  mem.map (fun p => (p.1, ([] : List String)))

/-- loadStep m r: the body of the loading loop of _load_ip_ranges_from_db —
bucket one row by the storage category of its bot name. -/
def loadStep (m : Mem) (r : AIBotIPRange) : Mem :=
  memAdd m (storageCategory r.bot_name) r.ip_address

/-- load_ip_ranges_from_db mem ranges: final memory after
_load_ip_ranges_from_db — clear every bucket of the shared dictionary in
place, then bucket each is_active row by storageCategory of its bot
name. -/
def load_ip_ranges_from_db (mem : Mem) (ranges : List AIBotIPRange) : Mem :=
  (ranges.filter (fun r => r.is_active)).foldl loadStep (clearedMem mem)

/-- loadTraceStep acc r: loadStep together with the trace of the states it
passes through. -/
def loadTraceStep (acc : List Mem × Mem) (r : AIBotIPRange) :
    List Mem × Mem :=
  (acc.1 ++ [loadStep acc.2 r], loadStep acc.2 r)

/-- loadStates mem ranges: the sequence of memory states a concurrent
reader of the shared _ai_bot_ips dictionary can observe while
_load_ip_ranges_from_db executes: the state on entry, the state after the
clearing loop, and the state after each row is added.  The clearing itself
is also incremental per bucket; listing only its completed point already
exhibits every property proved below. -/
def loadStates (mem : Mem) (ranges : List AIBotIPRange) : List Mem :=
  mem :: ((ranges.filter (fun r => r.is_active)).foldl loadTraceStep
    ([clearedMem mem], clearedMem mem)).1

/-- serviceMem ranges: the memory as every freshly constructed
IPRangeService sees it — __init__ runs _load_ip_ranges_from_db, so the
content is determined by the current database alone; of the hard-coded
initial dictionary only the four keys remain. -/
def serviceMem (ranges : List AIBotIPRange) : Mem :=
  load_ip_ranges_from_db AI_BOT_IPS_INIT ranges

/-- is_ip_in_ai_bot_range: membership in the in-memory buckets first (in
dictionary order), then the exact-match active direct_ip database fallback;
(is_ai_bot, bot_name, source_type). -/
def is_ip_in_ai_bot_range (mem : Mem) (ranges : List AIBotIPRange)
    (ip_address : String) : Bool × Option String × Option String :=
  if ip_address = "" then (false, none, none)
  else
    match mem.find? (fun p => ip_address ∈ p.2) with
    | some p => (true, some p.1, some "direct_ip")
    | none =>
      match ranges.find? (fun r =>
          r.ip_address = ip_address && r.source_type = "direct_ip" &&
          r.is_active) with
      | some r => (true, some r.bot_name, some "direct_ip")
      | none => (false, none, none)

/-- truthy s: Python truthiness of the Optional[str] ip_bot_name. -/
def truthy : Option String → Bool
  | some s => s ≠ ""
  | none => false

/-- detect_ai_bot_comprehensive: combine the User-Agent verdict with IP
membership; (bot_category, bot_name, detection_method).  The service is
constructed from the session, so the memory consulted is serviceMem
ranges. -/
def detect_ai_bot_comprehensive (user_agent ip_address : String)
    (ranges : List AIBotIPRange) : Option String × String × String :=
  let uaRes := detect_ai_bot user_agent
  let ipRes := is_ip_in_ai_bot_range (serviceMem ranges) ranges ip_address
  let base : Option String × String × String :=
    match uaRes with
    | some (c, _) => (some c, get_bot_name user_agent, "user_agent")
    | none => (none, "", "none")
  if ipRes.1 && truthy ipRes.2.1 then
    if base.2.2 = "user_agent" then
      ((if base.1 = none then some "IP_Detected_Bot" else base.1),
       base.2.1, "both")
    else
      (some "IP_Detected_Bot", "IP_" ++ (ipRes.2.1.getD ""), "ip_address")
  else base

/-! ## Address-literal validity (_is_valid_ip)

_is_valid_ip delegates to the Python standard library: ipaddress.ip_address
accepts IPv4 and IPv6 address literals, ipaddress.ip_network(ip,
strict=False) additionally accepts an optional "/prefix" where the prefix
is a digit string within range or, for IPv4, a dotted netmask/hostmask.
The embedding reproduces that grammar (CPython 3.9+ rules: no leading
zeros in IPv4 octets; IPv6 zone identifiers written with a percent sign
are not modelled). -/

/-- decOctetVal s: value of one IPv4 dotted-decimal octet — one to three
digits, at most 255, no leading zero. -/
def decOctetVal (s : String) : Option Nat :=
  match pyToNat? s with
  | none => none
  | some n =>
    if s.length ≤ 3 && (s.length = 1 || s.front ≠ '0') && n ≤ 255 then
      some n
    else none

/-- ipv4Val s: 32-bit value of an IPv4 dotted-quad literal. -/
def ipv4Val (s : String) : Option Nat :=
  match (pySplit s '.').mapM decOctetVal with
  | some [a, b, c, d] => some (((a * 256 + b) * 256 + c) * 256 + d)
  | _ => none

/-- isIPv4 s: the literal parses as an IPv4 address. -/
def isIPv4 (s : String) : Bool :=
  (ipv4Val s).isSome

/-- isHextet s: one to four hexadecimal digits. -/
def isHextet (s : String) : Bool :=
  s.length ≥ 1 && s.length ≤ 4 &&
  s.toList.all (fun c => c.isDigit || ('a' ≤ c.toLower && c.toLower ≤ 'f'))

/-- isIPv6 s: the literal parses as an IPv6 address, following CPython's
_ip_int_from_string — split on colons, substitute a trailing dotted-quad
by two hextets, allow at most one interior empty group (the double colon),
a leading or trailing empty group only as part of a leading or trailing
double colon, and require exactly eight groups without compression or at
most seven with it. -/
def isIPv6 (s : String) : Bool :=
  let raw := pySplit s ':'
  if raw.length < 3 then false
  else
    match (match raw.getLast? with
           | none => none
           | some last =>
             if last.toList.contains '.' then
               if isIPv4 last then some (raw.dropLast ++ ["0", "0"]) else none
             else some raw) with
    | none => false
    | some parts =>
      if parts.length > 9 then false
      else
        match (List.range parts.length).filter (fun i =>
            decide (1 ≤ i) && decide (i + 1 < parts.length) &&
            (parts.getD i "x" == "")) with
        | [] => parts.length = 8 && parts.all isHextet
        | [k] =>
          let hiCut : Option Nat :=
            if parts.headD "x" = "" then (if k = 1 then some 0 else none)
            else some k
          let loCut : Option Nat :=
            if parts.getLastD "x" = "" then
              (if parts.length - k - 1 = 1 then some 0 else none)
            else some (parts.length - k - 1)
          match hiCut, loCut with
          | some hi, some lo =>
            decide (hi + lo ≤ 7) && (parts.take hi).all isHextet &&
            (parts.drop (parts.length - lo)).all isHextet
          | _, _ => false
        | _ => false

/-- digitsAtMost s bound: the prefix-length grammar — an all-digit string
whose value is within the family's maximum (leading zeros accepted, as
CPython does). -/
def digitsAtMost (s : String) (bound : Nat) : Bool :=
  match pyToNat? s with
  | some n => n ≤ bound
  | none => false

/-- isV4NetmaskOrHostmask s: a dotted-quad whose 32-bit value is a run of
ones followed by zeros (netmask) or of zeros followed by ones
(hostmask). -/
def isV4NetmaskOrHostmask (s : String) : Bool :=
  match ipv4Val s with
  | none => false
  | some v =>
    (List.range 33).any (fun k =>
      v = 4294967296 - 2 ^ (32 - k) || v = 2 ^ (32 - k) - 1)

/-- ipNetworkOk s: ipaddress.ip_network(s, strict=False) succeeds — at most
one slash, and the mask side fits the address family. -/
def ipNetworkOk (s : String) : Bool :=
  match pySplit s '/' with
  | [addr] => isIPv4 addr || isIPv6 addr
  | [addr, pfx] =>
    (isIPv4 addr && (digitsAtMost pfx 32 || isV4NetmaskOrHostmask pfx)) ||
    (isIPv6 addr && digitsAtMost pfx 128)
  | _ => false

/-- is_valid_ip: _is_valid_ip — a plain address literal, or failing that a
network literal with strict=False. -/
def is_valid_ip (ip : String) : Bool :=
  (isIPv4 ip || isIPv6 ip) || ipNetworkOk ip

/-! ## Source Synchronizer (update_ip_ranges_from_source, update_all_ai_bot_ips)

The HTTP fetch is a parameter: Except.error carries str(e) of the raised
requests exception (non-2xx raise_for_status, timeout, DNS failure),
Except.ok carries response.text.  Database reads and writes are pure
operations on the ServiceState.  Python iterates the diffed sets in
unspecified set order; the embedding fixes first-appearance order, and
every theorem below is stated so that it does not depend on that order. -/

/-- parseLines body: strip the body, split on newlines, strip each line and
drop the empty ones. -/
def parseLines (body : String) : List String :=
  ((pySplit (pyStrip body) '\n').map pyStrip).filter (fun l => l ≠ "")

/-- pyTitle s: str.title — uppercase every letter that follows a
non-letter, lowercase every other letter. -/
def pyTitle (s : String) : String :=
  String.mk (s.toList.foldl
    (fun (acc : List Char × Bool) c =>
      if c.isAlpha then
        (acc.1 ++ [if acc.2 then c.toLower else c.toUpper], true)
      else (acc.1 ++ [c], false))
    ([], false)).1

/-- deriveBotName source_name: the default bot name,
source_name.replace('_',' ').replace('openai','OpenAI').title(). -/
def deriveBotName (source_name : String) : String :=
  pyTitle (pyReplace (pyReplace source_name "_" " ") "openai" "OpenAI")

/-- existingIPsFor ranges bot: the set of addresses already stored for this
bot — every record whose bot_name equals bot or contains it (the SQL OR of
equality and LIKE with percent on both sides), with no condition on
is_active. -/
def existingIPsFor (ranges : List AIBotIPRange) (bot : String) : List String :=
  ((ranges.filter (fun r => r.bot_name == bot || strHasSub r.bot_name bot)).map
    (fun r => r.ip_address)).dedup

/-- computeNewIPs fetched ranges bot: the set difference new_ips =
set(ip_lines) - existing_ips. -/
def computeNewIPs (fetched : List String) (ranges : List AIBotIPRange)
    (bot : String) : List String :=
  fetched.dedup.filter (fun ip => decide (ip ∉ existingIPsFor ranges bot))

/-- computeRemovedIPs fetched ranges bot: the set difference removed_ips =
existing_ips - set(ip_lines). -/
def computeRemovedIPs (fetched : List String) (ranges : List AIBotIPRange)
    (bot : String) : List String :=
  (existingIPsFor ranges bot).filter (fun ip => decide (ip ∉ fetched))

/-- add_ip_address: validate the literal, then insert a fresh active row
unless a row with this exact (bot_name, ip_address) already exists — in
which case only the in-memory bucket is touched — and mirror the address
into the in-memory bucket for its storage category. -/
def add_ip_address (st : ServiceState) (bot_name ip_address : String)
    (source_type : String) (source_url : Option String) : ServiceState × Bool :=
  let cat := storageCategory bot_name
  if ¬ is_valid_ip ip_address then (st, false)
  else if st.ranges.any (fun r =>
      r.bot_name == bot_name && r.ip_address == ip_address) then
    ({ st with mem := memAdd st.mem cat ip_address }, true)
  else
    ({ st with
        ranges := st.ranges ++
          [{ bot_name := bot_name, source_type := source_type,
             ip_address := ip_address, source_url := source_url,
             is_active := true }],
        mem := memAdd st.mem cat ip_address }, true)

/-- deactivate ranges bot ip: the UPDATE that flips is_active to false (and
stamps last_updated) on every row with this exact ip_address and
bot_name. -/
def deactivate (ranges : List AIBotIPRange) (bot ip : String) :
    List AIBotIPRange :=
  ranges.map (fun r =>
    if r.ip_address == ip && r.bot_name == bot then
      { r with is_active := false }
    else r)

/-- addNewIPStep bot url acc ip: the body of the loop over new_ips —
validate, insert through add_ip_address, and count the change (the counter
increments for every valid entry, whatever add_ip_address returned). -/
def addNewIPStep (bot url : String) (acc : ServiceState × Nat) (ip : String) :
    ServiceState × Nat :=
  if is_valid_ip ip then
    ((add_ip_address acc.1 bot ip "direct_ip" (some url)).1, acc.2 + 1)
  else acc

/-- deactivateStep bot s ip: the body of the loop over removed_ips. -/
def deactivateStep (bot : String) (s : ServiceState) (ip : String) :
    ServiceState :=
  { s with ranges := deactivate s.ranges bot ip }

/-- RunResult: the dictionary update_ip_ranges_from_source returns
(duration omitted — wall clock). -/
structure RunResult where
  success : Bool
  error : Option String
  bot_name : String
  new_ips_count : Nat
  removed_ips_count : Nat
  total_ips : Nat
  changes_count : Nat
deriving Repr, DecidableEq

/-- resolveBotName source_name bot_name?: the bot name a run uses — the
argument when present and non-empty (Python truthiness), otherwise derived
from the source name. -/
def resolveBotName (source_name : String) (bot_name? : Option String) :
    String :=
  match bot_name? with
  | some b => if b = "" then deriveBotName source_name else b
  | none => deriveBotName source_name

/-- update_ip_ranges_from_source: one Synchronizer run — derive the bot
name, fetch, diff against the stored addresses for the bot, insert the
valid new addresses (counting each valid one as a change), deactivate the
removed ones (counting each), and append exactly one log row; on a fetch
failure append exactly one log row carrying the error text and change
nothing else. -/
def update_ip_ranges_from_source (st : ServiceState)
    (source_name source_url : String) (bot_name? : Option String)
    (fetch : Except String String) : ServiceState × RunResult :=
  let bot := resolveBotName source_name bot_name?
  match fetch with
  | .error e =>
    let msg := "Failed to update IP ranges for " ++ source_name ++ ": " ++ e
    let entry : IPRangeUpdateLog :=
      { bot_name := bot, update_type := "full_update", changes_count := 0,
        error_message := some msg, source_url := some source_url }
    ({ st with logs := st.logs ++ [entry] },
     { success := false, error := some msg, bot_name := bot,
       new_ips_count := 0, removed_ips_count := 0, total_ips := 0,
       changes_count := 0 })
  | .ok body =>
    let ip_lines := parseLines body
    let new_ips := computeNewIPs ip_lines st.ranges bot
    let removed_ips := computeRemovedIPs ip_lines st.ranges bot
    let stc := new_ips.foldl (addNewIPStep bot source_url) (st, 0)
    let st2 := removed_ips.foldl (deactivateStep bot) stc.1
    let changes := stc.2 + removed_ips.length
    let entry : IPRangeUpdateLog :=
      { bot_name := bot, update_type := "full_update",
        changes_count := changes, error_message := none,
        source_url := some source_url }
    ({ st2 with logs := st2.logs ++ [entry] },
     { success := true, error := none, bot_name := bot,
       new_ips_count := new_ips.length,
       removed_ips_count := removed_ips.length,
       total_ips := ip_lines.length, changes_count := changes })

/-- IP_SOURCES: the configured sources, in dictionary order. -/
def IP_SOURCES : List (String × String) :=
  [ ("chatgpt_user",
     "https://raw.githubusercontent.com/FabrizioCafolla/openai-crawlers-ip-ranges/main/openai/openai-ip-ranges-chatgpt-user.txt"),
    ("gptbot",
     "https://raw.githubusercontent.com/FabrizioCafolla/openai-crawlers-ip-ranges/main/openai/openai-ip-ranges-gptbot.txt"),
    ("searchbot",
     "https://raw.githubusercontent.com/FabrizioCafolla/openai-crawlers-ip-ranges/main/openai/openai-ip-ranges-searchbot.txt"),
    ("openai_all",
     "https://raw.githubusercontent.com/FabrizioCafolla/openai-crawlers-ip-ranges/main/openai/openai-ip-ranges-all.txt") ]

/-- AllResult: the summary update_all_ai_bot_ips returns. -/
structure AllResult where
  total_sources : Nat
  successful_updates : Nat
  failed_updates : Nat
  sources : List (String × RunResult)
deriving Repr, DecidableEq

/-- updateAllStep fetch acc src: the body of the loop over IP_SOURCES —
run the source, record its result under its name, count it, and count its
success. -/
def updateAllStep (fetch : String → Except String String)
    (acc : ServiceState × List (String × RunResult) × Nat × Nat)
    (src : String × String) :
    ServiceState × List (String × RunResult) × Nat × Nat :=
  let step := update_ip_ranges_from_source acc.1 src.1 src.2 none (fetch src.1)
  (step.1, acc.2.1 ++ [(src.1, step.2)], acc.2.2.1 + 1,
   acc.2.2.2 + (if step.2.success then 1 else 0))

/-- update_all_ai_bot_ips: run every configured source in order against its
fetch outcome, collecting per-source results and the success/failure
counts.  The per-source fetch outcome is the function argument, indexed by
source name. -/
def update_all_ai_bot_ips (st : ServiceState)
    (fetch : String → Except String String) : ServiceState × AllResult :=
  let fin := IP_SOURCES.foldl (updateAllStep fetch) (st, [], 0, 0)
  (fin.1,
   { total_sources := fin.2.2.1, successful_updates := fin.2.2.2,
     failed_updates := fin.2.2.1 - fin.2.2.2, sources := fin.2.1 })

/-! ## Scheduler (scheduler_service.py)

The scheduler state is the is_running flag together with the global
schedule.jobs list (job names) and the messages printed so far; wall-clock
job firing and the background thread are outside the embedding.  The
start path registers its three daily jobs only after the is_running guard;
the stop path unconditionally clears the flag and the job list. -/

/-- SchedMsg: the operator-visible messages of start/stop — the
already-running warning, the started notice and the stopped notice. -/
inductive SchedMsg
  | warnAlreadyRunning
  | started
  | stopped
deriving Repr, DecidableEq

/-- SchedulerState: is_running flag, global job list, printed messages. -/
structure SchedulerState where
  is_running : Bool
  jobs : List String
  msgs : List SchedMsg
deriving Repr, DecidableEq

/-- schedulerInit: the state right after SchedulerService() construction
with an empty global schedule. -/
def schedulerInit : SchedulerState :=
  { is_running := false, jobs := [], msgs := [] }

/-- start_scheduler: warn and return when already running; otherwise set
the flag, register the three daily jobs and announce the start. -/
def start_scheduler (st : SchedulerState) : SchedulerState :=
  if st.is_running then { st with msgs := st.msgs ++ [SchedMsg.warnAlreadyRunning] }
  else
    { st with
        is_running := true,
        jobs := st.jobs ++
          ["_run_ip_update_task", "_run_chatgpt_ip_update_task",
           "_run_cleanup_task"],
        msgs := st.msgs ++ [SchedMsg.started] }

/-- stop_scheduler: clear the flag, clear the global schedule and announce
the stop — with no already-stopped guard. -/
def stop_scheduler (st : SchedulerState) : SchedulerState :=
  { st with is_running := false, jobs := [], msgs := st.msgs ++ [SchedMsg.stopped] }

/-- get_scheduler_status: the running flag and the scheduled-jobs count
(the timestamp fields of the Python dictionary are wall clock and not
modelled). -/
def get_scheduler_status (st : SchedulerState) : Bool × Nat :=
  (st.is_running, st.jobs.length)

/-! ## Helper lemmas -/

/-- listStartsWith is reflexive. -/
theorem listStartsWith_self (l : List Char) : listStartsWith l l = true := by
  induction l with
  | nil => rfl
  | cons a as ih => simp [listStartsWith, ih]

/-- listHasSub finds the pattern as a suffix. -/
theorem listHasSub_suffix (pre pat : List Char) :
    listHasSub pat (pre ++ pat) = true := by
  induction pre with
  | nil =>
    cases pat with
    | nil => rfl
    | cons c t =>
      simp only [List.nil_append, listHasSub]
      rw [listStartsWith_self]
      simp
  | cons c pre ih =>
    simp only [List.cons_append, listHasSub, List.append_eq]
    rw [ih]
    simp

/-- strHasSub finds a pattern appended at the end. -/
theorem strHasSub_append (a e : String) : strHasSub (a ++ e) e = true := by
  unfold strHasSub
  have h : (a ++ e).toList = a.toList ++ e.toList := by
    simp [String.toList, String.data_append]
  rw [h]
  exact listHasSub_suffix a.toList e.toList

/-- Appending to "IP_" never yields the empty string. -/
theorem ip_append_ne_empty (s : String) : ("IP_" ++ s) ≠ "" := by
  intro h
  have hlen := congrArg String.length h
  rw [String.length_append] at hlen
  have h3 : ("IP_" : String).length = 3 := rfl
  have h0 : ("" : String).length = 0 := rfl
  omega

/-! ## C1 and C8: detection-method precedence of the Detection Engine -/

/-- C1: for every user_agent and ip_address such that the User-Agent matcher
returns a category and the IP index reports a match with a (non-empty) bot
name, detect_ai_bot_comprehensive returns detection_method = "both",
botCategory equal to the User-Agent-derived category, and botName equal to
the User-Agent-derived name — the IP-derived name does not overwrite it. -/
theorem C1_both_user_agent_precedence
    (ua ip : String) (ranges : List AIBotIPRange) (c p n : String)
    (hua : detect_ai_bot ua = some (c, p))
    (hip : (is_ip_in_ai_bot_range (serviceMem ranges) ranges ip).1 = true)
    (hname : (is_ip_in_ai_bot_range (serviceMem ranges) ranges ip).2.1 = some n)
    (hn : n ≠ "") :
    detect_ai_bot_comprehensive ua ip ranges = (some c, get_bot_name ua, "both") := by
  simp only [detect_ai_bot_comprehensive, hua, hip, hname, truthy]
  simp [hn]

/-- C1 witness: a User-Agent matching Claude together with an IP stored for
GPTBot yields category Claude, the UA-derived name ClaudeBot, and method
"both". -/
theorem C1_witness :
    detect_ai_bot_comprehensive "ClaudeBot/1.0" "20.0.53.96"
      [{ bot_name := "GPTBot", source_type := "direct_ip",
         ip_address := "20.0.53.96", source_url := none, is_active := true }] =
      (some "Claude", "ClaudeBot", "both") := by
  have h := C1_both_user_agent_precedence "ClaudeBot/1.0" "20.0.53.96"
    [{ bot_name := "GPTBot", source_type := "direct_ip",
       ip_address := "20.0.53.96", source_url := none, is_active := true }]
    "Claude" "ClaudeBot" "GPTBot" (by decide) (by decide) (by decide) (by decide)
  exact h.trans (by decide)

/-- C8: for every user_agent and ip_address such that the User-Agent matcher
returns no category but the IP index reports a match with a (non-empty) bot
name, detect_ai_bot_comprehensive returns detection_method = "ip_address",
the synthesized category "IP_Detected_Bot", and the IP-derived bot name
with "IP_" prepended. -/
theorem C8_ip_only_detection
    (ua ip : String) (ranges : List AIBotIPRange) (n : String)
    (hua : detect_ai_bot ua = none)
    (hip : (is_ip_in_ai_bot_range (serviceMem ranges) ranges ip).1 = true)
    (hname : (is_ip_in_ai_bot_range (serviceMem ranges) ranges ip).2.1 = some n)
    (hn : n ≠ "") :
    detect_ai_bot_comprehensive ua ip ranges =
      (some "IP_Detected_Bot", "IP_" ++ n, "ip_address") := by
  simp only [detect_ai_bot_comprehensive, hua, hip, hname, truthy]
  simp [hn]

/-- C8 witness: a non-bot User-Agent with an IP stored for GPTBot yields the
synthesized category and the prefixed name. -/
theorem C8_witness :
    detect_ai_bot_comprehensive "Mozilla/5.0" "20.0.53.96"
      [{ bot_name := "GPTBot", source_type := "direct_ip",
         ip_address := "20.0.53.96", source_url := none, is_active := true }] =
      (some "IP_Detected_Bot", "IP_GPTBot", "ip_address") := by
  have h := C8_ip_only_detection "Mozilla/5.0" "20.0.53.96"
    [{ bot_name := "GPTBot", source_type := "direct_ip",
       ip_address := "20.0.53.96", source_url := none, is_active := true }]
    "GPTBot" (by decide) (by decide) (by decide) (by decide)
  exact h.trans (by decide)

/-! ## C4: a failed fetch logs exactly once and changes nothing else -/

/-- C4: a Synchronizer run whose fetch fails produces exactly one
UpdateLogEntry, with a non-null errorMessage carrying the underlying error
text and changesCount = 0, and leaves the stored AddressRecords (and the
in-memory index) unchanged; the run reports failure. -/
theorem C4_fetch_failure_logs_once
    (st : ServiceState) (source_name source_url : String)
    (bot_name? : Option String) (e : String) :
    (update_ip_ranges_from_source st source_name source_url bot_name?
      (.error e)).1.ranges = st.ranges ∧
    (update_ip_ranges_from_source st source_name source_url bot_name?
      (.error e)).1.mem = st.mem ∧
    (∃ entry : IPRangeUpdateLog,
      (update_ip_ranges_from_source st source_name source_url bot_name?
        (.error e)).1.logs = st.logs ++ [entry] ∧
      entry.changes_count = 0 ∧
      entry.error_message =
        some ("Failed to update IP ranges for " ++ source_name ++ ": " ++ e) ∧
      strHasSub ("Failed to update IP ranges for " ++ source_name ++ ": " ++ e)
        e = true) ∧
    (update_ip_ranges_from_source st source_name source_url bot_name?
      (.error e)).2.success = false := by
  refine ⟨rfl, rfl, ⟨_, rfl, rfl, rfl, ?_⟩, rfl⟩
  exact strHasSub_append _ e

/-! ## C5: updateAll isolates per-source failures -/

/-- Fold invariant of the updateAll loop: the results list grows by one
entry per source in order, the total counts every source, and the success
counter counts exactly the successful results. -/
theorem updateAll_fold_spec (fetch : String → Except String String) :
    ∀ (srcs : List (String × String)) (st : ServiceState)
      (res0 : List (String × RunResult)) (t0 s0 : Nat),
      ∃ newRes : List (String × RunResult),
        (srcs.foldl (updateAllStep fetch) (st, res0, t0, s0)).2.1 =
          res0 ++ newRes ∧
        newRes.map Prod.fst = srcs.map Prod.fst ∧
        (srcs.foldl (updateAllStep fetch) (st, res0, t0, s0)).2.2.1 =
          t0 + srcs.length ∧
        (srcs.foldl (updateAllStep fetch) (st, res0, t0, s0)).2.2.2 =
          s0 + (newRes.filter (fun q => q.2.success)).length := by
  intro srcs
  induction srcs with
  | nil =>
    intro st res0 t0 s0
    exact ⟨[], by simp, rfl, by simp, by simp⟩
  | cons src rest ih =>
    intro st res0 t0 s0
    obtain ⟨nr, h1, h2, h3, h4⟩ :=
      ih (update_ip_ranges_from_source st src.1 src.2 none (fetch src.1)).1
        (res0 ++ [(src.1,
          (update_ip_ranges_from_source st src.1 src.2 none (fetch src.1)).2)])
        (t0 + 1)
        (s0 + (if (update_ip_ranges_from_source st src.1 src.2 none
          (fetch src.1)).2.success then 1 else 0))
    refine ⟨(src.1, (update_ip_ranges_from_source st src.1 src.2 none
      (fetch src.1)).2) :: nr, ?_, ?_, ?_, ?_⟩
    · rw [List.foldl_cons]
      show (rest.foldl (updateAllStep fetch) _).2.1 = _
      simp only [updateAllStep]
      rw [h1]
      simp
    · simp [h2]
    · rw [List.foldl_cons]
      show (rest.foldl (updateAllStep fetch) _).2.2.1 = _
      simp only [updateAllStep]
      rw [h3]
      simp
      omega
    · rw [List.foldl_cons]
      show (rest.foldl (updateAllStep fetch) _).2.2.2 = _
      simp only [updateAllStep]
      rw [h4]
      rw [List.filter_cons]
      cases hs : (update_ip_ranges_from_source st src.1 src.2 none
        (fetch src.1)).2.success <;> (simp [hs]; try omega)

/-- C5: update_all_ai_bot_ips processes every configured source even when
earlier sources fail — every source name appears exactly once, in
configuration order, among the reported results — and returns
total_sources equal to the number of configured sources,
successful_updates equal to the number of successful runs, and
failed_updates their difference. -/
theorem C5_update_all_isolates_failures (st : ServiceState)
    (fetch : String → Except String String) :
    (update_all_ai_bot_ips st fetch).2.total_sources = IP_SOURCES.length ∧
    (update_all_ai_bot_ips st fetch).2.sources.map Prod.fst =
      IP_SOURCES.map Prod.fst ∧
    (update_all_ai_bot_ips st fetch).2.successful_updates =
      ((update_all_ai_bot_ips st fetch).2.sources.filter
        (fun q => q.2.success)).length ∧
    (update_all_ai_bot_ips st fetch).2.failed_updates =
      (update_all_ai_bot_ips st fetch).2.total_sources -
        (update_all_ai_bot_ips st fetch).2.successful_updates := by
  obtain ⟨nr, h1, h2, h3, h4⟩ := updateAll_fold_spec fetch IP_SOURCES st [] 0 0
  refine ⟨?_, ?_, ?_, rfl⟩
  · show (IP_SOURCES.foldl (updateAllStep fetch) (st, [], 0, 0)).2.2.1 =
      IP_SOURCES.length
    rw [h3]
    simp
  · show (IP_SOURCES.foldl (updateAllStep fetch) (st, [], 0, 0)).2.1.map
      Prod.fst = IP_SOURCES.map Prod.fst
    rw [h1]
    simpa using h2
  · show (IP_SOURCES.foldl (updateAllStep fetch) (st, [], 0, 0)).2.2.2 =
      ((IP_SOURCES.foldl (updateAllStep fetch) (st, [], 0, 0)).2.1.filter
        (fun q => q.2.success)).length
    rw [h4, h1]
    simp

/-! ## C9: scheduler start/stop idempotence -/

/-- C9 counterexample: stopping the already-stopped freshly constructed
scheduler does not surface a warning — it runs the ordinary stop path and
prints the ordinary stop notice, refuting the claim that stopping an
already-stopped scheduler surfaces a warning. -/
theorem C9_counterexample :
    stop_scheduler schedulerInit =
      { is_running := false, jobs := [], msgs := [SchedMsg.stopped] } ∧
    SchedMsg.warnAlreadyRunning ∉ (stop_scheduler schedulerInit).msgs := by
  constructor
  · rfl
  · intro h
    simp [stop_scheduler, schedulerInit] at h

/-- C9 amended: starting an already-running scheduler is a no-op that
surfaces a warning and registers no additional jobs, so the scheduled-jobs
count reported by the status query stays constant; stopping an
already-stopped scheduler leaves it stopped with an empty schedule and
does not error, but it re-runs the normal stop path (clearing the job list
and emitting the ordinary stop notice) instead of surfacing a warning. -/
theorem C9_start_stop_idempotent (st : SchedulerState) :
    (st.is_running = true →
      start_scheduler st = { st with msgs := st.msgs ++ [SchedMsg.warnAlreadyRunning] } ∧
      (get_scheduler_status (start_scheduler st)).2 =
        (get_scheduler_status st).2) ∧
    (st.is_running = false →
      (stop_scheduler st).is_running = false ∧
      (stop_scheduler st).jobs = [] ∧
      (stop_scheduler st).msgs = st.msgs ++ [SchedMsg.stopped] ∧
      SchedMsg.warnAlreadyRunning ∉ (stop_scheduler st).msgs.drop st.msgs.length) := by
  constructor
  · intro h
    constructor
    · simp [start_scheduler, h]
    · simp [start_scheduler, h, get_scheduler_status]
  · intro _
    refine ⟨rfl, rfl, rfl, ?_⟩
    intro hmem
    simp [stop_scheduler] at hmem

/-- C9 witness: the amended statement at the concrete double-start and
double-stop sequences from the initial scheduler state. -/
theorem C9_witness :
    start_scheduler (start_scheduler schedulerInit) =
      { start_scheduler schedulerInit with
          msgs := (start_scheduler schedulerInit).msgs ++
            [SchedMsg.warnAlreadyRunning] } ∧
    (get_scheduler_status (start_scheduler (start_scheduler schedulerInit))).2 =
      (get_scheduler_status (start_scheduler schedulerInit)).2 ∧
    (stop_scheduler schedulerInit).jobs = [] := by
  have h1 := (C9_start_stop_idempotent (start_scheduler schedulerInit)).1
    (by decide)
  have h2 := (C9_start_stop_idempotent schedulerInit).2 (by decide)
  exact ⟨h1.1, h1.2, h2.2.1⟩

/-! ## C2: the Diffing step and the isActive flag

specActiveExistingFor and the two spec diffs below are stated from the
spec's words — "newAddresses = fetched − existingActiveForBot" — for
comparison with the code's existingIPsFor/computeNewIPs/computeRemovedIPs,
which apply no isActive condition. -/

/-- specActiveExistingFor: the spec's existingActiveForBot — only records
with isActive = true participate on the existing side. -/
def specActiveExistingFor (ranges : List AIBotIPRange) (bot : String) :
    List String :=
  ((ranges.filter (fun r =>
    (r.bot_name == bot || strHasSub r.bot_name bot) && r.is_active)).map
    (fun r => r.ip_address)).dedup

/-- specNewAddresses: the spec's newAddresses = fetched −
existingActiveForBot. -/
def specNewAddresses (fetched : List String) (ranges : List AIBotIPRange)
    (bot : String) : List String :=
  fetched.dedup.filter (fun ip => decide (ip ∉ specActiveExistingFor ranges bot))

/-- specRemovedAddresses: the spec's removedAddresses =
existingActiveForBot − fetched. -/
def specRemovedAddresses (fetched : List String) (ranges : List AIBotIPRange)
    (bot : String) : List String :=
  (specActiveExistingFor ranges bot).filter (fun ip => decide (ip ∉ fetched))

/-- Membership in the code's existing-address set: any record of the bot,
active or not, including records whose bot_name merely contains the bot
name. -/
theorem mem_existingIPsFor (ranges : List AIBotIPRange) (bot ip : String) :
    ip ∈ existingIPsFor ranges bot ↔
      ∃ r, r ∈ ranges ∧ (r.bot_name = bot ∨ strHasSub r.bot_name bot = true) ∧
        r.ip_address = ip := by
  unfold existingIPsFor
  rw [List.mem_dedup, List.mem_map]
  constructor
  · rintro ⟨r, hr, hip⟩
    rw [List.mem_filter] at hr
    refine ⟨r, hr.1, ?_, hip⟩
    have h2 := hr.2
    simpa using h2
  · rintro ⟨r, hr, hcond, hip⟩
    refine ⟨r, ?_, hip⟩
    rw [List.mem_filter]
    refine ⟨hr, ?_⟩
    rcases hcond with h | h <;> simp [h]

/-- Membership in the code's newAddresses diff. -/
theorem mem_computeNewIPs (fetched : List String) (ranges : List AIBotIPRange)
    (bot ip : String) :
    ip ∈ computeNewIPs fetched ranges bot ↔
      ip ∈ fetched ∧ ip ∉ existingIPsFor ranges bot := by
  unfold computeNewIPs
  rw [List.mem_filter, List.mem_dedup]
  simp

/-- Membership in the code's removedAddresses diff. -/
theorem mem_computeRemovedIPs (fetched : List String)
    (ranges : List AIBotIPRange) (bot ip : String) :
    ip ∈ computeRemovedIPs fetched ranges bot ↔
      ip ∈ existingIPsFor ranges bot ∧ ip ∉ fetched := by
  unfold computeRemovedIPs
  rw [List.mem_filter]
  simp

/-- C2 counterexample: a single deactivated record for the bot and a fetch
body consisting exactly of that record's address.  The claim demands
that the address count as new (only active records participate on the
existing side), but the code's diff queries without any isActive filter
and computes newAddresses = ∅ — the run reports new_ips_count = 0 and the
deactivated record stays deactivated. -/
theorem C2_counterexample :
    computeNewIPs ["1.2.3.4"]
      [{ bot_name := "Gptbot", source_type := "direct_ip",
         ip_address := "1.2.3.4", source_url := none, is_active := false }]
      "Gptbot" = [] ∧
    specNewAddresses ["1.2.3.4"]
      [{ bot_name := "Gptbot", source_type := "direct_ip",
         ip_address := "1.2.3.4", source_url := none, is_active := false }]
      "Gptbot" = ["1.2.3.4"] ∧
    (update_ip_ranges_from_source
      { mem := AI_BOT_IPS_INIT,
        ranges := [{ bot_name := "Gptbot", source_type := "direct_ip",
                     ip_address := "1.2.3.4", source_url := none,
                     is_active := false }],
        logs := [] }
      "gptbot" "u" none (.ok "1.2.3.4")).2.new_ips_count = 0 := by
  refine ⟨by decide, by decide, by decide⟩

/-- C2 amended: update_ip_ranges_from_source computes newAddresses as the
fetched set minus the addresses of all of the bot's existing records —
active and inactive alike, and including any record whose botName merely
contains the bot's name — and removedAddresses as that same
all-records address set minus the fetched set; isActive plays no role in
either side of the diff. -/
theorem C2_diff_ignores_is_active (fetched : List String)
    (ranges : List AIBotIPRange) (bot ip : String) :
    (ip ∈ computeNewIPs fetched ranges bot ↔
      ip ∈ fetched ∧ ¬ ∃ r, r ∈ ranges ∧
        (r.bot_name = bot ∨ strHasSub r.bot_name bot = true) ∧
        r.ip_address = ip) ∧
    (ip ∈ computeRemovedIPs fetched ranges bot ↔
      (∃ r, r ∈ ranges ∧
        (r.bot_name = bot ∨ strHasSub r.bot_name bot = true) ∧
        r.ip_address = ip) ∧ ip ∉ fetched) := by
  rw [mem_computeNewIPs, mem_computeRemovedIPs, mem_existingIPsFor]
  exact ⟨Iff.rfl, Iff.rfl⟩

/-- C2 amended witness: the amended characterization applied at the
counterexample input — the deactivated record's address is not a new
address precisely because a record for it exists, active or not. -/
theorem C2_amended_witness :
    "1.2.3.4" ∉ computeNewIPs ["1.2.3.4"]
      [{ bot_name := "Gptbot", source_type := "direct_ip",
         ip_address := "1.2.3.4", source_url := none, is_active := false }]
      "Gptbot" := by
  have h := (C2_diff_ignores_is_active ["1.2.3.4"]
    [{ bot_name := "Gptbot", source_type := "direct_ip",
       ip_address := "1.2.3.4", source_url := none, is_active := false }]
    "Gptbot" "1.2.3.4").1
  intro hmem
  obtain ⟨-, hnone⟩ := h.mp hmem
  exact hnone ⟨_, List.mem_singleton_self _, Or.inl rfl, rfl⟩

/-! ## C6: the Index rebuild — isActive filter, bucketing, and in-place mutation -/

/-- memAdd preserves the key list of the memory. -/
theorem memAdd_keys (m : Mem) (c i : String) :
    (memAdd m c i).map Prod.fst = m.map Prod.fst := by
  induction m with
  | nil => rfl
  | cons p t ih =>
    simp only [memAdd, List.map_cons] at *
    by_cases h : p.1 = c <;> simp [h, ih]

/-- Membership after a set.add on a bucket list. -/
theorem mem_addIfAbsent (l : List String) (i ip : String) :
    (ip ∈ (if i ∈ l then l else l ++ [i])) ↔ (ip ∈ l ∨ ip = i) := by
  by_cases h : i ∈ l
  · rw [if_pos h]
    constructor
    · exact Or.inl
    · rintro (hl | rfl)
      · exact hl
      · exact h
  · rw [if_neg h]
    simp

/-- Membership after memAdd: the old members plus the added pair, provided
the target key exists. -/
theorem memAdd_mem (m : Mem) (c i cat ip : String)
    (hc : c ∈ m.map Prod.fst) :
    ((∃ b ∈ memAdd m c i, b.1 = cat ∧ ip ∈ b.2) ↔
      ((∃ b ∈ m, b.1 = cat ∧ ip ∈ b.2) ∨ (c = cat ∧ i = ip))) := by
  induction m with
  | nil => simp at hc
  | cons p t ih =>
    simp only [List.map_cons, List.mem_cons] at hc
    by_cases hp : p.1 = c
    · constructor
      · rintro ⟨b, hb, hbcat, hbip⟩
        simp only [memAdd, List.map_cons, List.mem_cons, if_pos hp] at hb
        rcases hb with rfl | hb
        · rcases (mem_addIfAbsent p.2 i ip).mp hbip with hold | rfl
          · exact Or.inl ⟨p, List.mem_cons_self _ _, hbcat, hold⟩
          · exact Or.inr ⟨hp ▸ hbcat, rfl⟩
        · have hb' : b ∈ memAdd t c i := hb
          rcases (show ∃ x ∈ t.map (fun q =>
              if q.1 = c then (q.1, if i ∈ q.2 then q.2 else q.2 ++ [i]) else q),
              x.1 = cat ∧ ip ∈ x.2 from ⟨b, hb, hbcat, hbip⟩) with ⟨x, hx, hxc, hxi⟩
          rcases List.mem_map.mp hx with ⟨q, hq, rfl⟩
          by_cases hqc : q.1 = c
          · simp only [if_pos hqc] at hxc hxi
            rcases (mem_addIfAbsent q.2 i ip).mp hxi with hold | rfl
            · exact Or.inl ⟨q, List.mem_cons_of_mem _ hq, hxc, hold⟩
            · exact Or.inr ⟨hqc ▸ hxc, rfl⟩
          · simp only [if_neg hqc] at hxc hxi
            exact Or.inl ⟨q, List.mem_cons_of_mem _ hq, hxc, hxi⟩
      · rintro (⟨b, hb, hbcat, hbip⟩ | ⟨rfl, rfl⟩)
        · rcases List.mem_cons.mp hb with rfl | hbt
          · refine ⟨(b.1, if i ∈ b.2 then b.2 else b.2 ++ [i]), ?_, hbcat, ?_⟩
            · simp [memAdd, hp]
            · exact (mem_addIfAbsent b.2 i ip).mpr (Or.inl hbip)
          · by_cases hbc : b.1 = c
            · refine ⟨(b.1, if i ∈ b.2 then b.2 else b.2 ++ [i]), ?_, hbcat, ?_⟩
              · simp only [memAdd, List.map_cons, List.mem_cons]
                exact Or.inr (List.mem_map.mpr ⟨b, hbt, by simp [hbc]⟩)
              · exact (mem_addIfAbsent b.2 i ip).mpr (Or.inl hbip)
            · refine ⟨b, ?_, hbcat, hbip⟩
              simp only [memAdd, List.map_cons, List.mem_cons]
              exact Or.inr (List.mem_map.mpr ⟨b, hbt, by simp [hbc]⟩)
        · refine ⟨(p.1, if i ∈ p.2 then p.2 else p.2 ++ [i]), ?_, hp, ?_⟩
          · simp [memAdd, hp]
          · exact (mem_addIfAbsent p.2 i i).mpr (Or.inr rfl)
    · have hc' : c ∈ t.map Prod.fst := by
        rcases hc with h | h
        · exact absurd h.symm hp
        · exact h
      constructor
      · rintro ⟨b, hb, hbcat, hbip⟩
        simp only [memAdd, List.map_cons, List.mem_cons, if_neg hp] at hb
        rcases hb with rfl | hb
        · exact Or.inl ⟨b, List.mem_cons_self _ _, hbcat, hbip⟩
        · rcases (ih hc').mp ⟨b, hb, hbcat, hbip⟩ with hl | hr
          · rcases hl with ⟨b', hb', h1, h2⟩
            exact Or.inl ⟨b', List.mem_cons_of_mem _ hb', h1, h2⟩
          · exact Or.inr hr
      · rintro (⟨b, hb, hbcat, hbip⟩ | hpair)
        · rcases List.mem_cons.mp hb with rfl | hbt
          · exact ⟨b, by simp [memAdd, hp], hbcat, hbip⟩
          · rcases (ih hc').mpr (Or.inl ⟨b, hbt, hbcat, hbip⟩) with ⟨b', hb', h1, h2⟩
            exact ⟨b', by
              simp only [memAdd, List.map_cons, List.mem_cons, if_neg hp]
              exact Or.inr hb', h1, h2⟩
        · rcases (ih hc').mpr (Or.inr hpair) with ⟨b', hb', h1, h2⟩
          exact ⟨b', by
            simp only [memAdd, List.map_cons, List.mem_cons, if_neg hp]
            exact Or.inr hb', h1, h2⟩

/-- storageCategory always lands on one of the four fixed bucket keys. -/
theorem storageCategory_mem_keys (s : String) :
    storageCategory s ∈ AI_BOT_IPS_INIT.map Prod.fst := by
  have h : ∀ b1 b2 b3 : Bool,
      (if b1 = true then "ChatGPT User"
       else if b2 = true then "GPTBot"
       else if b3 = true then "SearchBot" else "Other AI") ∈
      AI_BOT_IPS_INIT.map Prod.fst := by decide
  exact h _ _ _

/-- Membership after the loading fold: the initial members plus one bucket
entry per processed row. -/
theorem load_fold_mem (cat ip : String) :
    ∀ (rs : List AIBotIPRange) (m : Mem),
      m.map Prod.fst = AI_BOT_IPS_INIT.map Prod.fst →
      ((∃ b ∈ rs.foldl loadStep m, b.1 = cat ∧ ip ∈ b.2) ↔
        ((∃ b ∈ m, b.1 = cat ∧ ip ∈ b.2) ∨
          ∃ r ∈ rs, storageCategory r.bot_name = cat ∧ r.ip_address = ip)) := by
  intro rs
  induction rs with
  | nil => intro m _; simp
  | cons r t ih =>
    intro m hm
    rw [List.foldl_cons]
    have hkeys : (loadStep m r).map Prod.fst = AI_BOT_IPS_INIT.map Prod.fst := by
      unfold loadStep
      rw [memAdd_keys]
      exact hm
    rw [ih (loadStep m r) hkeys]
    have hc : storageCategory r.bot_name ∈ m.map Prod.fst := by
      rw [hm]
      exact storageCategory_mem_keys r.bot_name
    unfold loadStep
    rw [memAdd_mem m _ _ cat ip hc]
    simp only [List.mem_cons]
    constructor
    · rintro ((h | ⟨h1, h2⟩) | ⟨r', hr', h1, h2⟩)
      · exact Or.inl h
      · exact Or.inr ⟨r, Or.inl rfl, h1, h2⟩
      · exact Or.inr ⟨r', Or.inr hr', h1, h2⟩
    · rintro (h | ⟨r', (rfl | hr'), h1, h2⟩)
      · exact Or.inl (Or.inl h)
      · exact Or.inl (Or.inr ⟨h1, h2⟩)
      · exact Or.inr ⟨r', hr', h1, h2⟩

/-- The cleared memory has no members. -/
theorem clearedMem_no_members (mem : Mem) (cat ip : String) :
    ¬ ∃ b ∈ clearedMem mem, b.1 = cat ∧ ip ∈ b.2 := by
  rintro ⟨b, hb, -, hip⟩
  unfold clearedMem at hb
  rcases List.mem_map.mp hb with ⟨q, -, rfl⟩
  exact absurd hip (List.not_mem_nil ip)

/-- The loading trace only appends states. -/
theorem loadTrace_monotone :
    ∀ (rs : List AIBotIPRange) (acc : List Mem × Mem),
      ∃ tail, (rs.foldl loadTraceStep acc).1 = acc.1 ++ tail := by
  intro rs
  induction rs with
  | nil => intro acc; exact ⟨[], by simp⟩
  | cons r t ih =>
    intro acc
    rw [List.foldl_cons]
    obtain ⟨tail, htail⟩ := ih (loadTraceStep acc r)
    refine ⟨loadStep acc.2 r :: tail, ?_⟩
    rw [htail]
    simp [loadTraceStep]

/-- The loading trace ends at the final loaded memory. -/
theorem loadTrace_last :
    ∀ (rs : List AIBotIPRange) (states : List Mem) (cur : Mem),
      states.getLast? = some cur →
      ((rs.foldl loadTraceStep (states, cur)).1.getLast? =
        some (rs.foldl loadStep cur) ∧
       (rs.foldl loadTraceStep (states, cur)).2 = rs.foldl loadStep cur) := by
  intro rs
  induction rs with
  | nil => intro states cur h; exact ⟨h, rfl⟩
  | cons r t ih =>
    intro states cur h
    rw [List.foldl_cons, List.foldl_cons]
    have hstep : loadTraceStep (states, cur) r =
        (states ++ [loadStep cur r], loadStep cur r) := rfl
    rw [hstep]
    exact ih (states ++ [loadStep cur r]) (loadStep cur r)
      (by rw [List.getLast?_concat])

/-- C6 counterexample: rebuilding from a database holding the address
23.98.142.176 as an active ChatGPT row, while the shared in-memory
dictionary also holds that address, passes through the cleared
intermediate state — an observable state of the shared dictionary that
differs both from the complete old mapping and from the complete new
one, refuting "readers observe either the complete old snapshot or the
complete new one". -/
theorem C6_counterexample :
    clearedMem AI_BOT_IPS_INIT ∈ loadStates AI_BOT_IPS_INIT
      [{ bot_name := "chatgpt-user", source_type := "direct_ip",
         ip_address := "23.98.142.176", source_url := none,
         is_active := true }] ∧
    clearedMem AI_BOT_IPS_INIT ≠ AI_BOT_IPS_INIT ∧
    clearedMem AI_BOT_IPS_INIT ≠ load_ip_ranges_from_db AI_BOT_IPS_INIT
      [{ bot_name := "chatgpt-user", source_type := "direct_ip",
         ip_address := "23.98.142.176", source_url := none,
         is_active := true }] := by
  refine ⟨by decide, by decide, by decide⟩

/-- C6 amended: the rebuild considers exactly the records with isActive =
true, bucketed by the substring rules on botName (the rebuilt in-memory
index holds an address under a family key precisely when some active
record buckets there), and the trace of the shared dictionary ends in that
rebuilt content — but the rebuild mutates the one shared dictionary in
place, so its trace passes through the fully cleared state, which a
concurrent reader can observe. -/
theorem C6_rebuild_semantics (mem : Mem) (ranges : List AIBotIPRange)
    (cat ip : String) :
    ((∃ b ∈ serviceMem ranges, b.1 = cat ∧ ip ∈ b.2) ↔
      ∃ r ∈ ranges, r.is_active = true ∧ storageCategory r.bot_name = cat ∧
        r.ip_address = ip) ∧
    clearedMem mem ∈ loadStates mem ranges ∧
    (loadStates mem ranges).getLast? =
      some (load_ip_ranges_from_db mem ranges) := by
  refine ⟨?_, ?_, ?_⟩
  · unfold serviceMem load_ip_ranges_from_db
    rw [load_fold_mem cat ip _ (clearedMem AI_BOT_IPS_INIT) (by decide)]
    have hcl := clearedMem_no_members AI_BOT_IPS_INIT cat ip
    simp only [List.mem_filter]
    constructor
    · rintro (h | ⟨r, ⟨hr, hact⟩, h1, h2⟩)
      · exact absurd h hcl
      · exact ⟨r, hr, hact, h1, h2⟩
    · rintro ⟨r, hr, hact, h1, h2⟩
      exact Or.inr ⟨r, ⟨hr, hact⟩, h1, h2⟩
  · unfold loadStates
    obtain ⟨tail, htail⟩ := loadTrace_monotone
      (ranges.filter (fun r => r.is_active))
      ([clearedMem mem], clearedMem mem)
    rw [htail]
    simp
  · unfold loadStates load_ip_ranges_from_db
    have h := (loadTrace_last (ranges.filter (fun r => r.is_active))
      [clearedMem mem] (clearedMem mem) rfl).1
    rw [List.getLast?_cons, h]
    rfl

/-- C6 amended witness: the rebuild characterization applied at an active
uppercase-GPTBot row — the rebuilt index holds the address in the GPTBot
bucket, the cleared state lies on the trace, and the trace ends at the
rebuilt memory. -/
theorem C6_witness :
    (∃ b ∈ serviceMem [AIBotIPRange.mk "GPTBot" "direct_ip" "9.9.9.9" none true],
      b.1 = "GPTBot" ∧ "9.9.9.9" ∈ b.2) ∧
    clearedMem AI_BOT_IPS_INIT ∈ loadStates AI_BOT_IPS_INIT [] := by
  constructor
  · exact (C6_rebuild_semantics AI_BOT_IPS_INIT
      [AIBotIPRange.mk "GPTBot" "direct_ip" "9.9.9.9" none true]
      "GPTBot" "9.9.9.9").1.mpr
      ⟨_, List.mem_singleton_self _, rfl, by decide, rfl⟩
  · exact (C6_rebuild_semantics AI_BOT_IPS_INIT [] "GPTBot" "9.9.9.9").2.1

/-! ## C7: the User-Agent matcher — case-insensitive, first-declared wins -/

/-- A successful find? splits the list at the first witness. -/
theorem find?_split {α : Type} (p : α → Bool) :
    ∀ (l : List α) (a : α), l.find? p = some a →
      p a = true ∧ ∃ l1 l2, l = l1 ++ a :: l2 ∧ ∀ b ∈ l1, p b = false := by
  intro l
  induction l with
  | nil => intro a h; simp at h
  | cons x xs ih =>
    intro a h
    by_cases hx : p x
    · rw [List.find?_cons_of_pos _ hx] at h
      injection h with h2
      subst h2
      exact ⟨hx, [], xs, rfl, by simp⟩
    · rw [List.find?_cons_of_neg _ hx] at h
      obtain ⟨hpa, l1, l2, heq, hall⟩ := ih a h
      refine ⟨hpa, x :: l1, l2, by rw [heq]; rfl, ?_⟩
      intro b hb
      rcases List.mem_cons.mp hb with rfl | hb2
      · simpa using hx
      · exact hall b hb2

/-- firstMatch returns the first category holding a matching pattern, and
inside it the first matching pattern. -/
theorem firstMatch_split (ua : String) :
    ∀ (l : List (String × List String)) (c p : String),
      firstMatch ua l = some (c, p) →
      ∃ l1 ps l2, l = l1 ++ (c, ps) :: l2 ∧
        (∀ q ∈ l1, ∀ r ∈ q.2, strSearchCI ua r = false) ∧
        strSearchCI ua p = true ∧
        ∃ ps1 ps2, ps = ps1 ++ p :: ps2 ∧ ∀ r ∈ ps1, strSearchCI ua r = false := by
  intro l
  induction l with
  | nil => intro c p h; simp [firstMatch] at h
  | cons hd tl ih =>
    intro c p h
    obtain ⟨cat, pats⟩ := hd
    simp only [firstMatch] at h
    cases hfind : pats.find? (fun r => strSearchCI ua r) with
    | some q =>
      rw [hfind] at h
      injection h with h2
      rw [Prod.mk.injEq] at h2
      obtain ⟨h2a, h2b⟩ := h2
      subst h2a
      subst h2b
      obtain ⟨hq, ps1, ps2, hsplit, hfirst⟩ := find?_split _ pats _ hfind
      exact ⟨[], pats, tl, rfl, by simp, hq, ps1, ps2, hsplit, hfirst⟩
    | none =>
      rw [hfind] at h
      obtain ⟨l1, ps, l2, heq, hl1, hp, hrest⟩ := ih c p h
      refine ⟨(cat, pats) :: l1, ps, l2, by rw [heq]; rfl, ?_, hp, hrest⟩
      intro q hq r hr
      rcases List.mem_cons.mp hq with rfl | hq2
      · have h3 := List.find?_eq_none.mp hfind r hr
        simpa using h3
      · exact hl1 q hq2 r hr

/-- When some declared pattern matches, firstMatch succeeds. -/
theorem firstMatch_isSome_of_mem (ua : String) :
    ∀ (l : List (String × List String)) (c : String) (ps : List String)
      (p : String), (c, ps) ∈ l → p ∈ ps → strSearchCI ua p = true →
      ∃ c2 p2, firstMatch ua l = some (c2, p2) := by
  intro l
  induction l with
  | nil => intro c ps p h _ _; simp at h
  | cons hd tl ih =>
    intro c ps p hmem hp hmatch
    obtain ⟨cat, pats⟩ := hd
    simp only [firstMatch]
    cases hfind : pats.find? (fun r => strSearchCI ua r) with
    | some q => exact ⟨cat, q, rfl⟩
    | none =>
      rcases List.mem_cons.mp hmem with heq | hmem2
      · rw [Prod.mk.injEq] at heq
        obtain ⟨rfl, rfl⟩ := heq
        have h3 := List.find?_eq_none.mp hfind p hp
        rw [hmatch] at h3
        simp at h3
      · exact ih c ps p hmem2 hp hmatch

/-- No catalog pattern matches the empty User-Agent. -/
theorem catalog_no_empty_match :
    ∀ q ∈ AI_BOT_PATTERNS, ∀ r ∈ q.2, strSearchCI "" r = false := by decide

/-- strSearchCI only depends on the case-folded haystack. -/
theorem strSearchCI_congr (ua ua' p : String)
    (h : strLower ua = strLower ua') :
    strSearchCI ua p = strSearchCI ua' p := by
  unfold strSearchCI
  rw [h]

/-- Case folding preserves emptiness. -/
theorem strLower_empty_iff (s : String) : strLower s = "" ↔ s = "" := by
  constructor
  · intro h
    have h2 : s.toList.map Char.toLower = ([] : List Char) := by
      have h3 := congrArg String.toList h
      exact h3
    have h4 : s.toList = [] := by
      cases hcase : s.toList with
      | nil => rfl
      | cons c t => rw [hcase] at h2; simp at h2
    cases s with
    | mk data =>
      have h5 : data = [] := h4
      rw [h5]
  · intro h
    rw [h]
    rfl

/-- firstMatch only depends on the case-folded User-Agent. -/
theorem firstMatch_congr (ua ua' : String)
    (h : ∀ p, strSearchCI ua p = strSearchCI ua' p) :
    ∀ l, firstMatch ua l = firstMatch ua' l := by
  intro l
  induction l with
  | nil => rfl
  | cons hd tl ih =>
    obtain ⟨cat, pats⟩ := hd
    simp only [firstMatch]
    rw [show (fun p => strSearchCI ua p) = (fun p => strSearchCI ua' p) from
      funext h]
    rw [ih]

/-- C7: the User-Agent matcher is case-insensitive (it depends only on the
case-folded input), any User-Agent containing a declared pattern in any
letter case is detected, and the returned pair is the first-declared
matching category together with its first-declared matching pattern —
catalog-declaration order across categories, pattern-declaration order
within a category, first match wins. -/
theorem C7_matcher_order_and_case (ua ua' c p : String) (ps : List String) :
    (strLower ua = strLower ua' → detect_ai_bot ua = detect_ai_bot ua') ∧
    ((c, ps) ∈ AI_BOT_PATTERNS → p ∈ ps → strSearchCI ua p = true →
      ∃ c2 p2, detect_ai_bot ua = some (c2, p2)) ∧
    (detect_ai_bot ua = some (c, p) →
      ∃ l1 ps0 l2, AI_BOT_PATTERNS = l1 ++ (c, ps0) :: l2 ∧
        (∀ q ∈ l1, ∀ r ∈ q.2, strSearchCI ua r = false) ∧
        strSearchCI ua p = true ∧
        ∃ ps1 ps2, ps0 = ps1 ++ p :: ps2 ∧
          ∀ r ∈ ps1, strSearchCI ua r = false) := by
  refine ⟨?_, ?_, ?_⟩
  · intro h
    unfold detect_ai_bot
    by_cases he : ua = ""
    · rw [if_pos he, if_pos ((strLower_empty_iff ua').mp
        (by rw [← h, he]; rfl))]
    · rw [if_neg he, if_neg (fun h2 => he ((strLower_empty_iff ua).mp
        (by rw [h, h2]; rfl)))]
      exact firstMatch_congr ua ua' (fun q => strSearchCI_congr ua ua' q h)
        AI_BOT_PATTERNS
  · intro hmem hp hmatch
    have he : ua ≠ "" := by
      intro he
      rw [he] at hmatch
      rw [catalog_no_empty_match (c, ps) hmem p hp] at hmatch
      exact Bool.false_ne_true hmatch
    unfold detect_ai_bot
    rw [if_neg he]
    exact firstMatch_isSome_of_mem ua AI_BOT_PATTERNS c ps p hmem hp hmatch
  · intro h
    unfold detect_ai_bot at h
    by_cases he : ua = ""
    · rw [if_pos he] at h
      exact absurd h (by simp)
    · rw [if_neg he] at h
      exact firstMatch_split ua AI_BOT_PATTERNS c p h

/-- C7 witness: two case variants of the same User-Agent get the same
verdict; a User-Agent containing both "Claude" and "GPTBot" is detected;
and it resolves to ChatGPT — the category declared before Claude — via
its pattern "GPTBot". -/
theorem C7_witness :
    detect_ai_bot "xGPTBOTx" = detect_ai_bot "XgptbotX" ∧
    (∃ c2 p2, detect_ai_bot "contains Claude and GPTBot" = some (c2, p2)) ∧
    (∃ l1 ps0 l2, AI_BOT_PATTERNS = l1 ++ ("ChatGPT", ps0) :: l2 ∧
      (∀ q ∈ l1, ∀ r ∈ q.2,
        strSearchCI "contains Claude and GPTBot" r = false) ∧
      strSearchCI "contains Claude and GPTBot" "GPTBot" = true ∧
      ∃ ps1 ps2, ps0 = ps1 ++ "GPTBot" :: ps2 ∧
        ∀ r ∈ ps1, strSearchCI "contains Claude and GPTBot" r = false) := by
  refine ⟨?_, ?_, ?_⟩
  · exact (C7_matcher_order_and_case "xGPTBOTx" "XgptbotX" "" "" []).1
      (by decide)
  · exact (C7_matcher_order_and_case "contains Claude and GPTBot" ""
      "Claude" "Claude" ["Claude-Web", "Anthropic", "ClaudeBot", "Claude"]).2.1
      (by decide) (by decide) (by decide)
  · exact (C7_matcher_order_and_case "contains Claude and GPTBot" ""
      "ChatGPT" "GPTBot" []).2.2 (by decide)

/-! ## C10: coherence of the DetectionResult triple -/

/-- Detection success pins the pair to the catalog. -/
theorem detect_ai_bot_mem_catalog (ua c p : String)
    (h : detect_ai_bot ua = some (c, p)) :
    ∃ ps, (c, ps) ∈ AI_BOT_PATTERNS ∧ p ∈ ps := by
  unfold detect_ai_bot at h
  by_cases he : ua = ""
  · rw [if_pos he] at h
    exact absurd h (by simp)
  · rw [if_neg he] at h
    obtain ⟨l1, ps0, l2, heq, -, -, ps1, ps2, hps, -⟩ :=
      firstMatch_split ua AI_BOT_PATTERNS c p h
    refine ⟨ps0, ?_, ?_⟩
    · rw [heq]
      exact List.mem_append_right _ (List.mem_cons_self _ _)
    · rw [hps]
      exact List.mem_append_right _ (List.mem_cons_self _ _)

/-- A detected User-Agent always produces a non-empty bot name. -/
theorem get_bot_name_ne_empty (ua c p : String)
    (h : detect_ai_bot ua = some (c, p)) : get_bot_name ua ≠ "" := by
  obtain ⟨ps, hcat, -⟩ := detect_ai_bot_mem_catalog ua c p h
  have hc : c ≠ "" := by
    have hall : ∀ q ∈ AI_BOT_PATTERNS, q.1 ≠ "" := by decide
    exact hall (c, ps) hcat
  simp only [get_bot_name, h]
  by_cases hcl : cleanName p = ""
  · rw [if_pos hcl]
    exact hc
  · rw [if_neg hcl]
    exact hcl

/-- The four possible outcomes of detect_ai_bot_comprehensive. -/
theorem comprehensive_cases (ua ip : String) (ranges : List AIBotIPRange) :
    (detect_ai_bot_comprehensive ua ip ranges = (none, "", "none")) ∨
    (∃ c p0, detect_ai_bot ua = some (c, p0) ∧
      detect_ai_bot_comprehensive ua ip ranges =
        (some c, get_bot_name ua, "user_agent")) ∨
    (∃ n : String, detect_ai_bot_comprehensive ua ip ranges =
      (some "IP_Detected_Bot", "IP_" ++ n, "ip_address")) ∨
    (∃ c p0, detect_ai_bot ua = some (c, p0) ∧
      detect_ai_bot_comprehensive ua ip ranges =
        (some c, get_bot_name ua, "both")) := by
  cases hua : detect_ai_bot ua with
  | none =>
    cases hg : ((is_ip_in_ai_bot_range (serviceMem ranges) ranges ip).1 &&
        truthy (is_ip_in_ai_bot_range (serviceMem ranges) ranges ip).2.1) with
    | false =>
      left
      simp [detect_ai_bot_comprehensive, hua, hg]
    | true =>
      right; right; left
      refine ⟨(is_ip_in_ai_bot_range (serviceMem ranges) ranges ip).2.1.getD
        "", ?_⟩
      simp [detect_ai_bot_comprehensive, hua, hg]
  | some cp =>
    obtain ⟨c, p0⟩ := cp
    cases hg : ((is_ip_in_ai_bot_range (serviceMem ranges) ranges ip).1 &&
        truthy (is_ip_in_ai_bot_range (serviceMem ranges) ranges ip).2.1) with
    | false =>
      right; left
      exact ⟨c, p0, rfl, by simp [detect_ai_bot_comprehensive, hua, hg]⟩
    | true =>
      right; right; right
      exact ⟨c, p0, rfl, by simp [detect_ai_bot_comprehensive, hua, hg]⟩

/-- C10: the DetectionResult triple is coherent — detection_method is
"none" exactly when the returned category is null, exactly when the
returned bot name is the empty string; under any of the three positive
methods the category is non-null and the name non-empty. -/
theorem C10_result_coherent (ua ip : String) (ranges : List AIBotIPRange) :
    ((detect_ai_bot_comprehensive ua ip ranges).2.2 = "none" ↔
      (detect_ai_bot_comprehensive ua ip ranges).1 = none) ∧
    ((detect_ai_bot_comprehensive ua ip ranges).2.2 = "none" ↔
      (detect_ai_bot_comprehensive ua ip ranges).2.1 = "") ∧
    (((detect_ai_bot_comprehensive ua ip ranges).2.2 = "user_agent" ∨
      (detect_ai_bot_comprehensive ua ip ranges).2.2 = "ip_address" ∨
      (detect_ai_bot_comprehensive ua ip ranges).2.2 = "both") →
      (detect_ai_bot_comprehensive ua ip ranges).1 ≠ none ∧
      (detect_ai_bot_comprehensive ua ip ranges).2.1 ≠ "") := by
  rcases comprehensive_cases ua ip ranges with h | ⟨c, p0, hua, h⟩ |
    ⟨n, h⟩ | ⟨c, p0, hua, h⟩
  · rw [h]
    refine ⟨by simp, by simp, ?_⟩
    rintro (hm | hm | hm) <;> exact absurd hm (by decide)
  · rw [h]
    have hname := get_bot_name_ne_empty ua c p0 hua
    refine ⟨?_, ?_, fun _ => ⟨by simp, hname⟩⟩
    · constructor
      · intro hm
        have hm2 : ("user_agent" : String) = "none" := hm
        exact absurd hm2 (by decide)
      · intro hm
        have hm2 : (some c : Option String) = none := hm
        simp at hm2
    · constructor
      · intro hm
        have hm2 : ("user_agent" : String) = "none" := hm
        exact absurd hm2 (by decide)
      · intro hm
        have hm2 : get_bot_name ua = "" := hm
        exact absurd hm2 hname
  · rw [h]
    have hname := ip_append_ne_empty n
    refine ⟨?_, ?_, fun _ => ⟨by simp, hname⟩⟩
    · constructor
      · intro hm
        have hm2 : ("ip_address" : String) = "none" := hm
        exact absurd hm2 (by decide)
      · intro hm
        have hm2 : (some "IP_Detected_Bot" : Option String) = none := hm
        simp at hm2
    · constructor
      · intro hm
        have hm2 : ("ip_address" : String) = "none" := hm
        exact absurd hm2 (by decide)
      · intro hm
        have hm2 : ("IP_" ++ n) = "" := hm
        exact absurd hm2 hname
  · rw [h]
    have hname := get_bot_name_ne_empty ua c p0 hua
    refine ⟨?_, ?_, fun _ => ⟨by simp, hname⟩⟩
    · constructor
      · intro hm
        have hm2 : ("both" : String) = "none" := hm
        exact absurd hm2 (by decide)
      · intro hm
        have hm2 : (some c : Option String) = none := hm
        simp at hm2
    · constructor
      · intro hm
        have hm2 : ("both" : String) = "none" := hm
        exact absurd hm2 (by decide)
      · intro hm
        have hm2 : get_bot_name ua = "" := hm
        exact absurd hm2 hname

/-- C10 witness: the coherence statement applied at a User-Agent-detected
visitor, an IP-detected visitor and an undetected visitor. -/
theorem C10_witness :
    ((detect_ai_bot_comprehensive "GPTBot" "" []).1 ≠ none ∧
      (detect_ai_bot_comprehensive "GPTBot" "" []).2.1 ≠ "") ∧
    ((detect_ai_bot_comprehensive "Mozilla" "20.0.53.96"
        [AIBotIPRange.mk "GPTBot" "direct_ip" "20.0.53.96" none true]).1 ≠
        none) ∧
    ((detect_ai_bot_comprehensive "Mozilla" "" []).1 = none) := by
  refine ⟨?_, ?_, ?_⟩
  · exact (C10_result_coherent "GPTBot" "" []).2.2 (Or.inl (by decide))
  · exact ((C10_result_coherent "Mozilla" "20.0.53.96"
      [AIBotIPRange.mk "GPTBot" "direct_ip" "20.0.53.96" none true]).2.2
      (Or.inr (Or.inl (by decide)))).1
  · exact (C10_result_coherent "Mozilla" "" []).1.mp (by decide)

/-! ## C3: persisting new addresses — valid inserted, invalid skipped -/

/-- The new-address loop only appends rows, and every appended row is an
active, valid row of the bot drawn from the processed list. -/
theorem addNewIPs_fold_ranges (bot url : String) :
    ∀ (l : List String) (st0 : ServiceState) (n0 : Nat),
      ∃ tail, (l.foldl (addNewIPStep bot url) (st0, n0)).1.ranges =
        st0.ranges ++ tail ∧
        ∀ r ∈ tail, r.bot_name = bot ∧ r.is_active = true ∧
          is_valid_ip r.ip_address = true ∧ r.ip_address ∈ l := by
  intro l
  induction l with
  | nil =>
    intro st0 n0
    exact ⟨[], by simp, by simp⟩
  | cons ip rest ih =>
    intro st0 n0
    rw [List.foldl_cons]
    by_cases hv : is_valid_ip ip
    · by_cases hex : st0.ranges.any (fun r =>
          r.bot_name == bot && r.ip_address == ip) = true
      · have hstep : addNewIPStep bot url (st0, n0) ip =
            ({ st0 with mem := memAdd st0.mem (storageCategory bot) ip },
             n0 + 1) := by
          simp [addNewIPStep, add_ip_address, hv, hex]
        rw [hstep]
        obtain ⟨tail, h1, h2⟩ := ih _ _
        refine ⟨tail, h1, fun r hr => ?_⟩
        obtain ⟨a, b, c, d⟩ := h2 r hr
        exact ⟨a, b, c, List.mem_cons_of_mem _ d⟩
      · have hstep : addNewIPStep bot url (st0, n0) ip =
            ({ st0 with
                ranges := st0.ranges ++
                  [{ bot_name := bot, source_type := "direct_ip",
                     ip_address := ip, source_url := some url,
                     is_active := true }],
                mem := memAdd st0.mem (storageCategory bot) ip },
             n0 + 1) := by
          simp only [addNewIPStep, add_ip_address, hv, if_pos, if_true]
          rw [if_neg (by simp), if_neg hex]
        rw [hstep]
        obtain ⟨tail, h1, h2⟩ := ih _ _
        refine ⟨{ bot_name := bot, source_type := "direct_ip",
                  ip_address := ip, source_url := some url,
                  is_active := true } :: tail, ?_, ?_⟩
        · rw [h1]
          simp
        · rintro r hr
          rcases List.mem_cons.mp hr with rfl | hr2
          · exact ⟨rfl, rfl, hv, List.mem_cons_self _ _⟩
          · obtain ⟨a, b, c, d⟩ := h2 r hr2
            exact ⟨a, b, c, List.mem_cons_of_mem _ d⟩
    · have hstep : addNewIPStep bot url (st0, n0) ip = (st0, n0) := by
        simp [addNewIPStep, hv]
      rw [hstep]
      obtain ⟨tail, h1, h2⟩ := ih st0 n0
      refine ⟨tail, h1, fun r hr => ?_⟩
      obtain ⟨a, b, c, d⟩ := h2 r hr
      exact ⟨a, b, c, List.mem_cons_of_mem _ d⟩

/-- After the new-address loop, every valid processed address has an active
row for the bot — provided any pre-existing row for an exact
(bot, address) pair of the list was already active. -/
theorem addNewIPs_fold_active (bot url : String) :
    ∀ (l : List String) (st0 : ServiceState) (n0 : Nat),
      (∀ ip ∈ l, ∀ r, r ∈ st0.ranges → r.bot_name = bot →
        r.ip_address = ip → r.is_active = true) →
      ∀ ip ∈ l, is_valid_ip ip = true →
        ∃ r, r ∈ (l.foldl (addNewIPStep bot url) (st0, n0)).1.ranges ∧
          r.bot_name = bot ∧ r.ip_address = ip ∧ r.is_active = true := by
  intro l
  induction l with
  | nil =>
    intro st0 n0 _ ip h
    simp at h
  | cons ip0 rest ih =>
    intro st0 n0 hH ip hmem hv
    rw [List.foldl_cons]
    rcases List.mem_cons.mp hmem with rfl | hmem2
    · -- the head address: established at this step, preserved afterwards
      by_cases hex : st0.ranges.any (fun r =>
          r.bot_name == bot && r.ip_address == ip) = true
      · obtain ⟨r, hr, hcond⟩ := List.any_eq_true.mp hex
        have hcond2 : r.bot_name = bot ∧ r.ip_address = ip := by
          simpa using hcond
        have hbn : r.bot_name = bot := hcond2.1
        have hip : r.ip_address = ip := hcond2.2
        have hact : r.is_active = true :=
          hH ip (List.mem_cons_self _ _) r hr hbn hip
        have hstep : addNewIPStep bot url (st0, n0) ip =
            ({ st0 with mem := memAdd st0.mem (storageCategory bot) ip },
             n0 + 1) := by
          simp [addNewIPStep, add_ip_address, hv, hex]
        rw [hstep]
        obtain ⟨tail, h1, -⟩ := addNewIPs_fold_ranges bot url rest _ (n0 + 1)
        refine ⟨r, ?_, hbn, hip, hact⟩
        rw [h1]
        exact List.mem_append_left _ hr
      · have hstep : addNewIPStep bot url (st0, n0) ip =
            ({ st0 with
                ranges := st0.ranges ++
                  [{ bot_name := bot, source_type := "direct_ip",
                     ip_address := ip, source_url := some url,
                     is_active := true }],
                mem := memAdd st0.mem (storageCategory bot) ip },
             n0 + 1) := by
          simp only [addNewIPStep, add_ip_address, hv, if_pos, if_true]
          rw [if_neg (by simp), if_neg hex]
        rw [hstep]
        obtain ⟨tail, h1, -⟩ := addNewIPs_fold_ranges bot url rest _ (n0 + 1)
        refine ⟨{ bot_name := bot, source_type := "direct_ip",
                  ip_address := ip, source_url := some url,
                  is_active := true }, ?_, rfl, rfl, rfl⟩
        rw [h1]
        refine List.mem_append_left _ ?_
        exact List.mem_append_right _ (List.mem_cons_self _ _)
    · -- an address further down the list: push the invariant one step
      by_cases hv0 : is_valid_ip ip0
      · by_cases hex : st0.ranges.any (fun r =>
            r.bot_name == bot && r.ip_address == ip0) = true
        · have hstep : addNewIPStep bot url (st0, n0) ip0 =
              ({ st0 with mem := memAdd st0.mem (storageCategory bot) ip0 },
               n0 + 1) := by
            simp [addNewIPStep, add_ip_address, hv0, hex]
          rw [hstep]
          refine ih _ _ ?_ ip hmem2 hv
          intro ip2 h2 r hr hbn hip2
          exact hH ip2 (List.mem_cons_of_mem _ h2) r hr hbn hip2
        · have hstep : addNewIPStep bot url (st0, n0) ip0 =
              ({ st0 with
                  ranges := st0.ranges ++
                    [{ bot_name := bot, source_type := "direct_ip",
                       ip_address := ip0, source_url := some url,
                       is_active := true }],
                  mem := memAdd st0.mem (storageCategory bot) ip0 },
               n0 + 1) := by
            simp only [addNewIPStep, add_ip_address, hv0, if_pos, if_true]
            rw [if_neg (by simp), if_neg hex]
          rw [hstep]
          refine ih _ _ (fun ip2 h2 r hr hbn hip2 => ?_) ip hmem2 hv
          rcases List.mem_append.mp hr with hr2 | hr2
          · exact hH ip2 (List.mem_cons_of_mem _ h2) r hr2 hbn hip2
          · rcases List.mem_singleton.mp hr2 with rfl
            rfl
      · have hstep : addNewIPStep bot url (st0, n0) ip0 = (st0, n0) := by
          simp [addNewIPStep, hv0]
        rw [hstep]
        refine ih _ _ ?_ ip hmem2 hv
        intro ip2 h2 r hr hbn hip2
        exact hH ip2 (List.mem_cons_of_mem _ h2) r hr hbn hip2

/-- The deactivation loop leaves rows whose address is outside the removed
set untouched, in both directions. -/
theorem deactivate_fold_untouched (bot : String) :
    ∀ (rem : List String) (s : ServiceState) (r : AIBotIPRange),
      r.ip_address ∉ rem →
      (r ∈ (rem.foldl (deactivateStep bot) s).ranges ↔ r ∈ s.ranges) := by
  intro rem
  induction rem with
  | nil =>
    intro s r _
    exact Iff.rfl
  | cons ip0 rest ih =>
    intro s r h
    rw [List.foldl_cons]
    have hnotin : r.ip_address ∉ rest := fun hmem =>
      h (List.mem_cons_of_mem _ hmem)
    rw [ih _ r hnotin]
    have hne : r.ip_address ≠ ip0 := fun he => h (he ▸ List.mem_cons_self _ _)
    constructor
    · intro hr
      have hr2 : r ∈ deactivate s.ranges bot ip0 := hr
      rcases List.mem_map.mp hr2 with ⟨r0, hr0, heq⟩
      by_cases hc : (r0.ip_address == ip0 && r0.bot_name == bot) = true
      · rw [if_pos hc] at heq
        have hc2 : r0.ip_address = ip0 ∧ r0.bot_name = bot := by
          simpa using hc
        have h3 : r.ip_address = ip0 := by
          rw [← heq]
          exact hc2.1
        exact absurd h3 hne
      · rw [if_neg hc] at heq
        rw [← heq]
        exact hr0
    · intro hr
      by_cases hc : (r.ip_address == ip0 && r.bot_name == bot) = true
      · have hc2 : r.ip_address = ip0 ∧ r.bot_name = bot := by simpa using hc
        exact absurd hc2.1 hne
      · show r ∈ deactivate s.ranges bot ip0
        exact List.mem_map.mpr ⟨r, hr, by rw [if_neg hc]⟩

/-- An address of the code's newAddresses diff is never in the removed
diff. -/
theorem new_removed_disjoint (fetched : List String)
    (ranges : List AIBotIPRange) (bot ip : String)
    (h : ip ∈ computeNewIPs fetched ranges bot) :
    ip ∉ computeRemovedIPs fetched ranges bot := by
  intro h2
  exact ((mem_computeRemovedIPs fetched ranges bot ip).mp h2).2
    ((mem_computeNewIPs fetched ranges bot ip).mp h).1

/-- No stored row of the bot matches an address of the newAddresses
diff — the diff excluded every stored address of the bot, active or not. -/
theorem computeNewIPs_no_pair (fetched : List String)
    (ranges : List AIBotIPRange) (bot ip : String)
    (h : ip ∈ computeNewIPs fetched ranges bot) :
    ∀ r, r ∈ ranges → r.bot_name = bot → r.ip_address ≠ ip := by
  intro r hr hbn hip
  exact ((mem_computeNewIPs fetched ranges bot ip).mp h).2
    ((mem_existingIPsFor ranges bot ip).mpr ⟨r, hr, Or.inl hbn, hip⟩)

/-- C3: on a successful fetch the run always succeeds; every newAddresses
entry that passes address-literal validation ends with an active
AddressRecord for the (bot, address) pair — by insertion, since (as also
asserted here) no record for that exact pair pre-exists: the diff already
excluded every stored address of the bot, so the claim's reactivation case
cannot arise — and entries failing validation are skipped: no record with
their address is added, and the run does not fail. -/
theorem C3_persist_valid_skip_invalid (st : ServiceState)
    (source_name source_url : String) (bot_name? : Option String)
    (body : String) :
    (update_ip_ranges_from_source st source_name source_url bot_name?
      (.ok body)).2.success = true ∧
    ∀ ip, ip ∈ computeNewIPs (parseLines body) st.ranges
        (resolveBotName source_name bot_name?) →
      ((∀ r, r ∈ st.ranges →
          r.bot_name = resolveBotName source_name bot_name? →
          r.ip_address ≠ ip) ∧
       (is_valid_ip ip = true →
        ∃ r, r ∈ (update_ip_ranges_from_source st source_name source_url
            bot_name? (.ok body)).1.ranges ∧
          r.bot_name = resolveBotName source_name bot_name? ∧
          r.ip_address = ip ∧ r.is_active = true) ∧
       (is_valid_ip ip = false →
        ∀ r, r ∈ (update_ip_ranges_from_source st source_name source_url
            bot_name? (.ok body)).1.ranges → r.ip_address = ip →
          r ∈ st.ranges)) := by
  refine ⟨rfl, ?_⟩
  intro ip hmem
  set bot := resolveBotName source_name bot_name? with hbotdef
  set new := computeNewIPs (parseLines body) st.ranges bot with hnewdef
  set removed := computeRemovedIPs (parseLines body) st.ranges bot with hremdef
  have hnopair := computeNewIPs_no_pair (parseLines body) st.ranges bot ip hmem
  refine ⟨hnopair, ?_, ?_⟩
  · intro hv
    have hH : ∀ ip2 ∈ new, ∀ r, r ∈ st.ranges → r.bot_name = bot →
        r.ip_address = ip2 → r.is_active = true := by
      intro ip2 h2 r hr hbn hip2
      exact absurd hip2 (computeNewIPs_no_pair _ _ _ _ h2 r hr hbn)
    obtain ⟨r, hr, hbn, hip, hact⟩ :=
      addNewIPs_fold_active bot source_url new st 0 hH ip hmem hv
    have hdisj : r.ip_address ∉ removed := by
      rw [hip]
      exact new_removed_disjoint _ _ _ _ hmem
    refine ⟨r, ?_, hbn, hip, hact⟩
    show r ∈ (removed.foldl (deactivateStep bot)
      (new.foldl (addNewIPStep bot source_url) (st, 0)).1).ranges
    exact (deactivate_fold_untouched bot removed _ r hdisj).mpr hr
  · intro hv r hr hip
    have hdisj : r.ip_address ∉ removed := by
      rw [hip]
      exact new_removed_disjoint _ _ _ _ hmem
    have hr3 : r ∈ (removed.foldl (deactivateStep bot)
        (new.foldl (addNewIPStep bot source_url) (st, 0)).1).ranges := hr
    have hr2 := (deactivate_fold_untouched bot removed _ r hdisj).mp hr3
    obtain ⟨tail, h1, h2⟩ := addNewIPs_fold_ranges bot source_url new st 0
    rw [h1] at hr2
    rcases List.mem_append.mp hr2 with h | h
    · exact h
    · obtain ⟨-, -, hvr, -⟩ := h2 r h
      rw [hip, hv] at hvr
      exact absurd hvr (by decide)

/-- C3 witness: a body with one valid and one malformed line against an
empty store — the run succeeds, the valid address gets an active row for
the derived bot, and no row carries the malformed literal. -/
theorem C3_witness :
    (update_ip_ranges_from_source ⟨[], [], []⟩ "gptbot" "u" none
      (.ok "20.0.53.96\nbogus")).2.success = true ∧
    (∃ r, r ∈ (update_ip_ranges_from_source ⟨[], [], []⟩ "gptbot" "u" none
        (.ok "20.0.53.96\nbogus")).1.ranges ∧
      r.bot_name = resolveBotName "gptbot" none ∧
      r.ip_address = "20.0.53.96" ∧ r.is_active = true) ∧
    (∀ r, r ∈ (update_ip_ranges_from_source ⟨[], [], []⟩ "gptbot" "u" none
        (.ok "20.0.53.96\nbogus")).1.ranges → r.ip_address = "bogus" →
      r ∈ ([] : List AIBotIPRange)) := by
  have h := C3_persist_valid_skip_invalid ⟨[], [], []⟩ "gptbot" "u" none
    "20.0.53.96\nbogus"
  refine ⟨h.1, ?_, ?_⟩
  · exact (h.2 "20.0.53.96" (by decide)).2.1 (by decide)
  · exact (h.2 "bogus" (by decide)).2.2 (by decide)

end AIDetector
